import Mathlib

/-!
Shallow embedding of `mapgroups/models.py` (the MidAtlanticPortal
marco-map_groups repository): the data model for map groups, membership,
featured ranking and activity logging, together with the derived queries
and the multi-step `create` / `rename` operations.

Strings are modelled as Lean `String` (ASCII inputs; the NFKD
transliteration step of Django's `slugify` is the identity on ASCII).
The relational store is a record of row lists; each ORM write is one
state-transforming step, so partial execution of a multi-step operation
is the prefix of its write list.  The random suffix produced by
`get_random_string(8)` is threaded as an explicit oracle argument.
-/

namespace Mapgroups

/-- Python 2 `\w` for ASCII strings: letters, digits and underscore
(used by Django's `slugify` regular expressions). -/
def isWordChar (c : Char) : Bool :=
  (('a' ≤ c && c ≤ 'z') || ('A' ≤ c && c ≤ 'Z') || ('0' ≤ c && c ≤ '9') || c = '_')

/-- Python `\s`: space, tab, newline, carriage return, vertical tab, form feed. -/
def isSpaceChar (c : Char) : Bool :=
  (c = ' ' || c = '\t' || c = '\n' || c = '\r' || c = '\x0b' || c = '\x0c')

/-- Python `str.strip()`: drop whitespace from both ends. -/
def stripWs (l : List Char) : List Char :=
  ((l.dropWhile isSpaceChar).reverse.dropWhile isSpaceChar).reverse

/-- `re.sub(r'[-\s]+', '-', value)`: every maximal run of whitespace and
hyphens becomes a single hyphen.  The flag records whether the previous
character belonged to such a run. -/
def collapseAux : Bool → List Char → List Char
  | _, [] => []
  | prevSep, c :: cs =>
    if isSpaceChar c || c = '-' then
      if prevSep then collapseAux true cs else '-' :: collapseAux true cs
    else c :: collapseAux false cs

/-- `django.utils.text.slugify` on the character list: drop non-ASCII
(the `encode('ascii','ignore')` step), remove characters that are not
word characters, whitespace or hyphens (`re.sub(r'[^\w\s-]', '', v)`),
strip, lowercase, then collapse whitespace/hyphen runs to `-`. -/
def slugifyL (l : List Char) : List Char :=
  let ascii := l.filter (fun c => c.toNat < 128)
  let kept := ascii.filter (fun c => isWordChar c || isSpaceChar c || c = '-')
  let lowered := (stripWs kept).map Char.toLower
  collapseAux false lowered

/-- `slugify(unicode(name))` as used throughout `models.py`. -/
def slugify (s : String) : String :=
  ⟨slugifyL s.data⟩

/-- `MapGroup._permission_group_name`: the slug truncated to
`min(80 - 8, len(slug))` characters, followed by the 8-character random
suffix `rnd` (the oracle standing for `get_random_string(8)`). -/
def permission_group_name (name : String) (rnd : String) : String :=
  let n := slugify name
  (⟨n.data.take (min (80 - 8) n.data.length)⟩ : String) ++ rnd

/-- The derivation as the spec words it: "truncate the slug to at most 72
characters, then append 8 characters" — named separately so the claim can
compare it with the source's `permission_group_name`. -/
def specPermissionGroupName (name : String) (rnd : String) : String :=
  (⟨(slugify name).data.take 72⟩ : String) ++ rnd

/-- `django.contrib.auth.models.User`, reduced to the fields this module
reads: identity, the `is_anonymous()` / `is_active` checks, and the set of
permission-group ids the user belongs to (`user.groups`). -/
structure User where
  id : Nat
  is_anonymous : Bool
  is_active : Bool
  groups : List Nat
deriving DecidableEq, Repr

/-- `django.contrib.auth.models.Group` (the permission group): a unique
name, plus the flag set by the feature-sharing registry's
`enable_sharing` call. -/
structure Group where
  id : Nat
  name : String
  sharing_enabled : Bool
deriving DecidableEq, Repr

/-- `MapGroup`: name, derived slug, owner, blurb, the 1:1 link to its
permission group, and the open flag. -/
structure MapGroup where
  id : Nat
  name : String
  slug : String
  owner : Nat
  blurb : String
  permission_group : Nat
  is_open : Bool
deriving DecidableEq, Repr

/-- `MapGroupMember`: the (user, map_group) membership row with its join
timestamp, manager flag and display preference. -/
structure MapGroupMember where
  id : Nat
  user : Nat
  map_group : Nat
  date_joined : Nat
  is_manager : Bool
  show_real_name : Bool
deriving DecidableEq, Repr

/-- `FeaturedGroups`: a unique positive rank attached to at most one map
group. -/
structure FeaturedGroups where
  id : Nat
  rank : Nat
  map_group : Nat
deriving DecidableEq, Repr

/-- `ActivityLog`: an event record for a group, with its creation
timestamp (modelled as a natural number of time units). -/
structure ActivityLog where
  id : Nat
  group : Nat
  message : String
  date_created : Nat
  admin : Bool
deriving DecidableEq, Repr

/-- The relational store: one list of rows per table, plus the next
surrogate id.  Lists keep the store's base order (no `ORDER BY`). -/
structure DB where
  nextId : Nat
  users : List User
  permGroups : List Group
  mapGroups : List MapGroup
  members : List MapGroupMember
  featured : List FeaturedGroups
  activities : List ActivityLog
deriving DecidableEq, Repr

/-- Errors the store surfaces to this layer. -/
inductive DBError where
  | uniqueConstraintViolation
deriving DecidableEq, Repr

/-- Errors a `QuerySet.get` call can raise past `get_member`'s handler. -/
inductive GetError where
  | multipleObjectsReturned
deriving DecidableEq, Repr

/-- `MapGroupFeaturedManager.get_queryset`: groups whose `featuredgroups`
reverse link is non-null, in the store's base order (the manager applies
no ordering). -/
def MapGroupFeaturedManager_queryset (db : DB) : List MapGroup :=
  db.mapGroups.filter (fun g => db.featured.any (fun f => f.map_group = g.id))

/-- `MapGroupNonFeaturedManager.get_queryset`: groups with no
`FeaturedGroups` row. -/
def MapGroupNonFeaturedManager_queryset (db : DB) : List MapGroup :=
  db.mapGroups.filter (fun g => !(db.featured.any (fun f => f.map_group = g.id)))

/-- Ordered insertion by `rank` (ties and order of equal ranks as in a
stable sort; `rank` is unique so ties do not arise in valid stores). -/
def insertByRank (f : FeaturedGroups) : List FeaturedGroups → List FeaturedGroups
  | [] => [f]
  | g :: gs => if f.rank ≤ g.rank then f :: g :: gs else g :: insertByRank f gs

/-- Stable insertion sort by `rank`. -/
def sortByRank : List FeaturedGroups → List FeaturedGroups
  | [] => []
  | f :: fs => insertByRank f (sortByRank fs)

/-- `FeaturedGroupsManager.get_queryset`: the `FeaturedGroups` rows with
`order_by('rank')`.  (In the source this manager is declared but never
attached to a model.) -/
def FeaturedGroupsManager_queryset (db : DB) : List FeaturedGroups :=
  sortByRank db.featured

/-- `RecentActivityManager.get_queryset`: `filter(date_created__lte=7)` —
the raw `date_created` value compared with the literal `7`. -/
def RecentActivityManager_queryset (db : DB) : List ActivityLog :=
  db.activities.filter (fun a => a.date_created ≤ 7)

/-- The membership predicate of `mapgroupmember_set.filter(user=user)` on
a given map group. -/
def memberRow (g : MapGroup) (u : User) (m : MapGroupMember) : Bool :=
  m.map_group = g.id && m.user = u.id

/-- `MapGroup.has_member`: false for an anonymous or inactive user,
otherwise `mapgroupmember_set.filter(user=user).exists()`. -/
def has_member (db : DB) (g : MapGroup) (u : User) : Bool :=
  if u.is_anonymous || !u.is_active then false
  else !(db.members.filter (memberRow g u)).isEmpty

/-- `MapGroup.get_member`: none for an anonymous or inactive user,
otherwise `mapgroupmember_set.get(user=user)` with `DoesNotExist` caught
(returning none) and `MultipleObjectsReturned` propagating. -/
def get_member (db : DB) (g : MapGroup) (u : User) :
    Except GetError (Option MapGroupMember) :=
  if u.is_anonymous || !u.is_active then .ok none
  else
    match db.members.filter (memberRow g u) with
    | [] => .ok none
    | [m] => .ok (some m)
    | _ => .error .multipleObjectsReturned

/-- The store's insert of a `MapGroupMember` row under the declared
`unique_together = (('user', 'map_group'),)` constraint: a second row for
the same pair is refused with a unique-constraint violation and nothing
is written. -/
def insertMember (db : DB) (m : MapGroupMember) : Except DBError DB :=
  if db.members.any (fun x => x.user = m.user && x.map_group = m.map_group)
  then .error .uniqueConstraintViolation
  else .ok { db with members := db.members ++ [m] }

/-- At most one membership row per (user, map_group) pair — the state the
unique-together constraint keeps the store in. -/
def pairUnique (db : DB) : Prop :=
  db.members.Pairwise (fun a b => ¬(a.user = b.user ∧ a.map_group = b.map_group))

/-- Run the first `k` writes of a multi-step operation: the store state a
failure at step `k+1` leaves behind (each ORM call commits on its own —
the source wraps neither `create` nor `rename` in a transaction). -/
def runWrites (ws : List (DB → DB)) (k : Nat) (db : DB) : DB :=
  (ws.take k).foldl (fun d w => w d) db

/-- The permission-group row `Group.objects.create(name=...)` inserts
during `MapGroupManager.create` (sharing not yet enabled). -/
def createdPg (db0 : DB) (name rnd : String) : Group :=
  { id := db0.nextId, name := permission_group_name name rnd, sharing_enabled := false }

/-- The `MapGroup` row `mg.save()` inserts during `create`: `save` derives
`slug` from `name` before writing. -/
def createdMapGroup (db0 : DB) (name : String) (ownerId : Nat) (opn : Bool)
    (blurb : String) : MapGroup :=
  { id := db0.nextId + 1, name := name, slug := slugify name, owner := ownerId,
    blurb := blurb, permission_group := db0.nextId, is_open := opn }

/-- The owner's membership row `member.save()` inserts during `create`:
`is_manager` is set to true, `show_real_name` keeps its default. -/
def createdMember (db0 : DB) (ownerId : Nat) (now : Nat) : MapGroupMember :=
  { id := db0.nextId + 2, user := ownerId, map_group := db0.nextId + 1,
    date_joined := now, is_manager := true, show_real_name := false }

/-- The five store writes of `MapGroupManager.create`, in source order:
(1) `Group.objects.create(name=mg._permission_group_name())`,
(2) `enable_sharing(pg)`, (3) `mg.save()`, (4) `owner.groups.add(pg)`,
(5) `member.save()`. -/
def createWrites (db0 : DB) (name : String) (ownerId : Nat) (opn : Bool)
    (blurb : String) (rnd : String) (now : Nat) : List (DB → DB) :=
  let pg := createdPg db0 name rnd
  let mg := createdMapGroup db0 name ownerId opn blurb
  let mem := createdMember db0 ownerId now
  [ fun db => { db with nextId := db.nextId + 1, permGroups := db.permGroups ++ [pg] },
    fun db => { db with permGroups := (db.permGroups.map
                  (fun p => if p.id = pg.id then { p with sharing_enabled := true } else p)) },
    fun db => { db with nextId := db.nextId + 1, mapGroups := db.mapGroups ++ [mg] },
    fun db => { db with users := (db.users.map
                  (fun u => if u.id = ownerId then
                      { u with groups := if pg.id ∈ u.groups then u.groups else u.groups ++ [pg.id] }
                    else u)) },
    fun db => { db with nextId := db.nextId + 1, members := db.members ++ [mem] } ]

/-- `MapGroupManager.create(name, owner, open, blurb)`: all five writes,
returning the `(mg, member)` tuple of the source. -/
def create (db : DB) (name : String) (ownerId : Nat) (opn : Bool)
    (blurb : String) (rnd : String) (now : Nat) : DB × MapGroup × MapGroupMember :=
  (runWrites (createWrites db name ownerId opn blurb rnd now) 5 db,
   createdMapGroup db name ownerId opn blurb,
   createdMember db ownerId now)

/-- The two store writes of `MapGroup.rename`, in source order:
(1) `self.name = new_name; self.save()` (which re-derives `slug`),
(2) `self.permission_group.name = self._permission_group_name();
self.permission_group.save()`. -/
def renameWrites (g : MapGroup) (newName : String) (rnd : String) : List (DB → DB) :=
  [ fun db => { db with mapGroups := (db.mapGroups.map
                  (fun x => if x.id = g.id then { x with name := newName, slug := slugify newName } else x)) },
    fun db => { db with permGroups := (db.permGroups.map
                  (fun p => if p.id = g.permission_group then { p with name := permission_group_name newName rnd } else p)) } ]

/-- `MapGroup.rename(new_name)`: both writes. -/
def rename (db : DB) (g : MapGroup) (newName : String) (rnd : String) : DB :=
  runWrites (renameWrites g newName rnd) 2 db

theorem take_min_length {α : Type} (l : List α) (k : Nat) :
    l.take (min k l.length) = l.take k := by
  rcases Nat.le_total k l.length with h | h
  · rw [Nat.min_eq_left h]
  · rw [Nat.min_eq_right h, List.take_length, List.take_of_length_le h]

theorem append_suffix_inj (a b s t : String) (hlen : s.length = t.length)
    (h : a ++ s = b ++ t) : s = t := by
  have hd : a.data ++ s.data = b.data ++ t.data := by
    have h' := congrArg String.data h
    simpa [String.data_append] using h'
  have hsl : s.data.length = t.data.length := hlen
  have hlen' : a.data.length = b.data.length := by
    have h1 := congrArg List.length hd
    simp only [List.length_append] at h1
    omega
  exact String.ext (List.append_inj hd hlen').2

theorem insertByRank_perm (f : FeaturedGroups) (l : List FeaturedGroups) :
    (insertByRank f l).Perm (f :: l) := by
  induction l with
  | nil => simp [insertByRank]
  | cons g gs ih =>
    by_cases h : f.rank ≤ g.rank
    · simp [insertByRank, h]
    · simp only [insertByRank, if_neg h]
      exact (ih.cons g).trans (List.Perm.swap f g gs)

theorem insertByRank_sorted (f : FeaturedGroups) (l : List FeaturedGroups)
    (h : l.Pairwise (fun a b => a.rank ≤ b.rank)) :
    (insertByRank f l).Pairwise (fun a b => a.rank ≤ b.rank) := by
  induction l with
  | nil => simp [insertByRank]
  | cons g gs ih =>
    rcases List.pairwise_cons.mp h with ⟨hg, hgs⟩
    by_cases hle : f.rank ≤ g.rank
    · simp only [insertByRank, if_pos hle]
      refine List.pairwise_cons.mpr ⟨?_, h⟩
      intro y hy
      rcases List.mem_cons.mp hy with rfl | hy'
      · exact hle
      · exact Nat.le_trans hle (hg y hy')
    · simp only [insertByRank, if_neg hle]
      refine List.pairwise_cons.mpr ⟨?_, ih hgs⟩
      intro y hy
      rcases List.mem_cons.mp ((insertByRank_perm f gs).mem_iff.mp hy) with rfl | hy'
      · exact Nat.le_of_not_le hle
      · exact hg y hy'

theorem sortByRank_perm (l : List FeaturedGroups) : (sortByRank l).Perm l := by
  induction l with
  | nil => simp [sortByRank]
  | cons f fs ih => exact (insertByRank_perm f (sortByRank fs)).trans (ih.cons f)

theorem sortByRank_sorted (l : List FeaturedGroups) :
    (sortByRank l).Pairwise (fun a b => a.rank ≤ b.rank) := by
  induction l with
  | nil => simp [sortByRank]
  | cons f fs ih => exact insertByRank_sorted f (sortByRank fs) ih

theorem filter_memberRow_len_le_one (db : DB) (g : MapGroup) (u : User)
    (hu : pairUnique db) : (db.members.filter (memberRow g u)).length ≤ 1 := by
  have hp : (db.members.filter (memberRow g u)).Pairwise
      (fun a b => ¬(a.user = b.user ∧ a.map_group = b.map_group)) :=
    List.Pairwise.filter _ hu
  match hfl : db.members.filter (memberRow g u) with
  | [] => simp
  | [_] => simp
  | m1 :: m2 :: rest =>
    rw [hfl] at hp
    have h12 := (List.pairwise_cons.mp hp).1 m2 (List.mem_cons_self m2 rest)
    have hm1 : memberRow g u m1 = true :=
      List.of_mem_filter (l := db.members) (p := memberRow g u)
        (by rw [hfl]; exact List.mem_cons_self m1 (m2 :: rest))
    have hm2 : memberRow g u m2 = true :=
      List.of_mem_filter (l := db.members) (p := memberRow g u)
        (by rw [hfl]; exact List.mem_cons_of_mem m1 (List.mem_cons_self m2 rest))
    simp only [memberRow, Bool.and_eq_true, decide_eq_true_eq] at hm1 hm2
    exact absurd ⟨hm1.2.trans hm2.2.symm, hm1.1.trans hm2.1.symm⟩ h12

/-- The ranks attached to one group (a list: empty when the group has no
`FeaturedGroups` row). -/
def rankOf (db : DB) (g : MapGroup) : List Nat :=
  (db.featured.filter (fun f => f.map_group = g.id)).map (fun f => f.rank)

/-- The rank sequence of a group listing, in listing order. -/
def ranksOf (db : DB) (gs : List MapGroup) : List Nat :=
  (gs.map (rankOf db)).flatten

/-- A store with four groups; groups 1, 2, 3 carry ranks 3, 1, 2 and
group 4 has no rank. -/
def dbFeatured : DB :=
  { nextId := 100, users := [], permGroups := [],
    mapGroups := [⟨1, "alpha", "alpha", 0, "", 11, false⟩,
                  ⟨2, "beta", "beta", 0, "", 12, false⟩,
                  ⟨3, "gamma", "gamma", 0, "", 13, false⟩,
                  ⟨4, "delta", "delta", 0, "", 14, false⟩],
    members := [],
    featured := [⟨21, 3, 1⟩, ⟨22, 1, 2⟩, ⟨23, 2, 3⟩],
    activities := [] }

/-- C1, counterexample: with ranks {3, 1, 2} the featured view returns the
groups in store order, whose rank sequence 3, 1, 2 is not ascending — the
featured manager applies no `order_by('rank')`. -/
theorem c1_counterexample :
    ranksOf dbFeatured (MapGroupFeaturedManager_queryset dbFeatured) = [3, 1, 2] ∧
    ¬ List.Pairwise (fun a b => a ≤ b)
        (ranksOf dbFeatured (MapGroupFeaturedManager_queryset dbFeatured)) := by
  decide

/-- C1 (amended): the featured view returns exactly the groups holding a
`FeaturedGroups` rank and the not-featured view exactly those without one,
but in the store's base order, not ascending by rank; ascending rank order
is produced only by `FeaturedGroupsManager`'s queryset over the
`FeaturedGroups` rows (a manager the source never attaches to a model). -/
theorem c1_featured_views_amended (db : DB) :
    (∀ g, g ∈ MapGroupFeaturedManager_queryset db ↔
        g ∈ db.mapGroups ∧ ∃ f ∈ db.featured, f.map_group = g.id) ∧
    (∀ g, g ∈ MapGroupNonFeaturedManager_queryset db ↔
        g ∈ db.mapGroups ∧ ∀ f ∈ db.featured, f.map_group ≠ g.id) ∧
    (FeaturedGroupsManager_queryset db).Pairwise (fun a b => a.rank ≤ b.rank) ∧
    (FeaturedGroupsManager_queryset db).Perm db.featured := by
  refine ⟨?_, ?_, sortByRank_sorted _, sortByRank_perm _⟩
  · intro g
    simp [MapGroupFeaturedManager_queryset, List.mem_filter, List.any_eq_true]
  · intro g
    simp [MapGroupNonFeaturedManager_queryset, List.mem_filter, List.any_eq_true]

/-- A store with two activity records: one written at the current instant
(timestamp 1000000, age 0) and one ancient record (timestamp 3). -/
def dbActivity : DB :=
  { nextId := 0, users := [], permGroups := [], mapGroups := [], members := [],
    featured := [],
    activities := [⟨1, 1, "created now", 1000000, false⟩,
                   ⟨2, 1, "ancient", 3, false⟩] }

/-- C2, evaluation at the failing input: the "recent" view compares the
raw `date_created` timestamp with the literal 7 (`date_created__lte=7`),
so the record of age 0 is excluded while the ancient record whose
timestamp happens to be ≤ 7 is included — the filter is not an age
filter. -/
theorem c2_recent_filter_eval :
    RecentActivityManager_queryset dbActivity = [⟨2, 1, "ancient", 3, false⟩] ∧
    dbActivity.activities.map (fun a => a.date_created) = [1000000, 3] := by
  decide

/-- C3: the permission-group name is the slug truncated to at most
80 − 8 = 72 characters followed by the 8-character random suffix, so its
length never exceeds 80. -/
theorem c3_permission_group_name_length (name rnd : String) (h8 : rnd.length = 8) :
    permission_group_name name rnd = specPermissionGroupName name rnd ∧
    (permission_group_name name rnd).length ≤ 80 := by
  constructor
  · show (⟨(slugify name).data.take (min (80 - 8) (slugify name).data.length)⟩ : String) ++ rnd
        = (⟨(slugify name).data.take 72⟩ : String) ++ rnd
    rw [take_min_length]
  · show ((⟨(slugify name).data.take (min (80 - 8) (slugify name).data.length)⟩ : String) ++ rnd).length ≤ 80
    rw [String.length_append]
    have h1 : (⟨(slugify name).data.take (min (80 - 8) (slugify name).data.length)⟩ : String).length
        = min (min (80 - 8) (slugify name).data.length) (slugify name).data.length := by
      show ((slugify name).data.take (min (80 - 8) (slugify name).data.length)).length = _
      rw [List.length_take]
    rw [h1, h8]
    omega

/-- A 500-character display name. -/
def longName : String := ⟨List.replicate 500 'a'⟩

/-- C3 witness: the bound holds at a concrete 500-character name and a
concrete 8-character suffix. -/
theorem c3_permission_group_name_length_witness :
    ("ABCDEFGH" : String).length = 8 ∧
    (permission_group_name longName "ABCDEFGH" = specPermissionGroupName longName "ABCDEFGH" ∧
     (permission_group_name longName "ABCDEFGH").length ≤ 80) :=
  ⟨by decide, c3_permission_group_name_length longName "ABCDEFGH" (by decide)⟩

/-- A dormant owner and an otherwise empty store. -/
def ownerU : User := ⟨1, false, true, []⟩

/-- Store for the partial-failure scenarios: one user, and (for rename) a
group `Old` whose permission group still carries its original name. -/
def dbC4 : DB :=
  { nextId := 100, users := [ownerU], permGroups := [], mapGroups := [],
    members := [], featured := [], activities := [] }

/-- The rename target used in the C4 scenario. -/
def dbC4r : DB :=
  { nextId := 100, users := [ownerU],
    permGroups := [⟨50, "oldAAAAAAAA", true⟩],
    mapGroups := [⟨5, "Old", "old", 1, "", 50, false⟩],
    members := [], featured := [], activities := [] }

/-- The in-memory group object on which rename is invoked in the C4
scenario. -/
def gC4 : MapGroup := ⟨5, "Old", "old", 1, "", 50, false⟩

/-- C4, counterexample: stopping `create` after its first write leaves a
permission group with no map group and no membership (an orphan), and
stopping `rename` after its first write leaves the renamed group with its
stale permission-group name — partial state remains, because neither
operation is wrapped in a transaction. -/
theorem c4_counterexample :
    (runWrites (createWrites dbC4 "Test Group" 1 false "" "ABCDEFGH" 0) 1 dbC4 ≠ dbC4 ∧
     (runWrites (createWrites dbC4 "Test Group" 1 false "" "ABCDEFGH" 0) 1 dbC4).permGroups.map
        (fun p => p.name) = ["test-groupABCDEFGH"] ∧
     (runWrites (createWrites dbC4 "Test Group" 1 false "" "ABCDEFGH" 0) 1 dbC4).mapGroups = [] ∧
     (runWrites (createWrites dbC4 "Test Group" 1 false "" "ABCDEFGH" 0) 1 dbC4).members = []) ∧
    ((runWrites (renameWrites gC4 "New Name" "BBBBBBBB") 1 dbC4r).mapGroups.map
        (fun x => x.slug) = ["new-name"] ∧
     (runWrites (renameWrites gC4 "New Name" "BBBBBBBB") 1 dbC4r).permGroups.map
        (fun p => p.name) = ["oldAAAAAAAA"]) := by
  decide

/-- C4 (amended): `create` and `rename` take no transaction boundary —
their writes commit one by one, so a failure after `create`'s
permission-group write leaves that permission group in the store with the
Group and Membership writes never performed, and a failure after
`rename`'s group write leaves the group renamed while every
permission-group row (the stale name included) is untouched. -/
theorem c4_no_transaction_amended (db : DB) (name : String) (ownerId : Nat)
    (opn : Bool) (blurb : String) (rnd : String) (now : Nat)
    (g : MapGroup) (newName : String) (rnd2 : String) :
    ((runWrites (createWrites db name ownerId opn blurb rnd now) 1 db).permGroups
        = db.permGroups ++ [createdPg db name rnd] ∧
     (runWrites (createWrites db name ownerId opn blurb rnd now) 1 db).mapGroups = db.mapGroups ∧
     (runWrites (createWrites db name ownerId opn blurb rnd now) 1 db).members = db.members) ∧
    ((runWrites (renameWrites g newName rnd2) 1 db).permGroups = db.permGroups ∧
     (runWrites (renameWrites g newName rnd2) 1 db).mapGroups = db.mapGroups.map
        (fun x => if x.id = g.id then { x with name := newName, slug := slugify newName } else x)) :=
  ⟨⟨rfl, rfl, rfl⟩, rfl, rfl⟩

/-- The group renamed in the C5 counterexample: its permission group
already carries the name derived from "foo" with suffix "AAAAAAAA". -/
def gC5 : MapGroup := ⟨5, "foo", "foo", 1, "", 50, false⟩

/-- The permission-group row of `gC5` before the rename. -/
def pgC5 : Group := ⟨50, "fooAAAAAAAA", true⟩

/-- The store the C5 counterexample and witness start from. -/
def dbC5 : DB :=
  { nextId := 100, users := [ownerU], permGroups := [pgC5],
    mapGroups := [gC5], members := [], featured := [], activities := [] }

/-- C5, counterexample: renaming to the same display name while the
random oracle repeats the old suffix leaves the permission-group name
equal to the one held before the rename — the code never compares the
fresh name against the old one, so distinctness is not guaranteed. -/
theorem c5_counterexample :
    permission_group_name "foo" "AAAAAAAA" = "fooAAAAAAAA" ∧
    dbC5.permGroups.map (fun p => p.name) = ["fooAAAAAAAA"] ∧
    (rename dbC5 gC5 "foo" "AAAAAAAA").permGroups.map (fun p => p.name) = ["fooAAAAAAAA"] := by
  decide

/-- C5 (amended): rename writes the slugified new name into the group's
slug, writes the freshly derived `permission_group_name new_name suffix`
into the permission group, and the written name differs from the prior
permission-group name whenever the freshly drawn 8-character suffix
differs from the 8-character suffix of the prior name (only a repeat of
the old suffix combined with an unchanged truncated slug can make them
coincide). -/
theorem c5_rename_amended (db : DB) (g : MapGroup) (newName : String)
    (rnd : String) (oldPg : Group) (hg : g ∈ db.mapGroups)
    (hmem : oldPg ∈ db.permGroups) (hid : oldPg.id = g.permission_group) :
    ({ g with name := newName, slug := slugify newName } ∈ (rename db g newName rnd).mapGroups) ∧
    ({ oldPg with name := permission_group_name newName rnd } ∈ (rename db g newName rnd).permGroups) ∧
    (∀ p s : String, oldPg.name = p ++ s → s.length = 8 → rnd.length = 8 →
      s ≠ rnd → permission_group_name newName rnd ≠ oldPg.name) := by
  refine ⟨?_, ?_, ?_⟩
  · have h := List.mem_map_of_mem
      (fun x => if x.id = g.id then { x with name := newName, slug := slugify newName } else x) hg
    simpa [rename, runWrites, renameWrites] using h
  · have h := List.mem_map_of_mem
      (fun p => if p.id = g.permission_group then
        { p with name := permission_group_name newName rnd } else p) hmem
    simpa [rename, runWrites, renameWrites, hid] using h
  · intro p s hname h8s h8r hne heq
    have hrs : rnd = s := by
      apply append_suffix_inj
          (⟨(slugify newName).data.take (min (80 - 8) (slugify newName).data.length)⟩ : String) p
      · rw [h8r, h8s]
      · rw [← hname]
        exact heq
    exact hne hrs.symm

/-- C5 witness: the amended statement at a concrete store, renaming
"foo" to "Bar" with fresh suffix "BBBBBBBB". -/
theorem c5_rename_amended_witness :
    ({ gC5 with name := "Bar", slug := slugify "Bar" } ∈ (rename dbC5 gC5 "Bar" "BBBBBBBB").mapGroups) ∧
    ({ pgC5 with name := permission_group_name "Bar" "BBBBBBBB" } ∈ (rename dbC5 gC5 "Bar" "BBBBBBBB").permGroups) ∧
    (∀ p s : String, pgC5.name = p ++ s → s.length = 8 → ("BBBBBBBB" : String).length = 8 →
      s ≠ "BBBBBBBB" → permission_group_name "Bar" "BBBBBBBB" ≠ pgC5.name) :=
  c5_rename_amended dbC5 gC5 "Bar" "BBBBBBBB" pgC5 (by decide) (by decide) (by decide)

/-- An existing but inactive owner. -/
def inactiveOwner : User := ⟨2, false, false, []⟩

/-- The store the C6 counterexample starts from: the inactive owner is
its only user. -/
def dbC6 : DB :=
  { nextId := 100, users := [inactiveOwner], permGroups := [], mapGroups := [],
    members := [], featured := [], activities := [] }

/-- C6, counterexample: creating a group for an existing but inactive
owner stores the owner's Membership row with `is_manager = true`, yet
`has_member(group, owner)` returns false, because `has_member` rejects
inactive users before consulting the membership table. -/
theorem c6_counterexample :
    ((create dbC6 "Test Group" 2 false "" "ABCDEFGH" 0).2.2.is_manager = true) ∧
    ((create dbC6 "Test Group" 2 false "" "ABCDEFGH" 0).1.members.map
        (fun m => (m.user, m.map_group)) = [(2, 101)]) ∧
    ((create dbC6 "Test Group" 2 false "" "ABCDEFGH" 0).2.1.id = 101) ∧
    has_member (create dbC6 "Test Group" 2 false "" "ABCDEFGH" 0).1
        (create dbC6 "Test Group" 2 false "" "ABCDEFGH" 0).2.1 inactiveOwner = false := by
  decide

/-- C6 (amended): after `create(name, owner)` the owner's Membership row
is stored and the returned Membership has `is_manager = true`; when the
owner is active and not anonymous, `has_member(group, owner)` is true
(for an inactive or anonymous owner the row still exists but `has_member`
reports false). -/
theorem c6_create_owner_membership (db : DB) (name : String) (owner : User)
    (opn : Bool) (blurb : String) (rnd : String) (now : Nat)
    (h1 : owner.is_anonymous = false) (h2 : owner.is_active = true) :
    has_member (create db name owner.id opn blurb rnd now).1
        (create db name owner.id opn blurb rnd now).2.1 owner = true ∧
    (create db name owner.id opn blurb rnd now).2.2.is_manager = true ∧
    (create db name owner.id opn blurb rnd now).2.2 ∈ (create db name owner.id opn blurb rnd now).1.members := by
  refine ⟨?_, rfl, ?_⟩
  · have hmem : (create db name owner.id opn blurb rnd now).1.members
        = db.members ++ [createdMember db owner.id now] := rfl
    have hmg : (create db name owner.id opn blurb rnd now).2.1
        = createdMapGroup db name owner.id opn blurb := rfl
    rw [has_member, hmem, hmg, h1, h2]
    simp [List.filter_append, memberRow, createdMember, createdMapGroup, List.isEmpty_iff]
  · have hmem : (create db name owner.id opn blurb rnd now).1.members
        = db.members ++ [createdMember db owner.id now] := rfl
    rw [hmem]
    exact List.mem_append_right _ (List.mem_singleton.mpr rfl)

/-- C6 witness: the amended statement at a concrete active owner. -/
theorem c6_create_owner_membership_witness :
    ownerU.is_anonymous = false ∧ ownerU.is_active = true ∧
    (has_member (create dbC4 "Test Group" ownerU.id false "" "ABCDEFGH" 0).1
        (create dbC4 "Test Group" ownerU.id false "" "ABCDEFGH" 0).2.1 ownerU = true ∧
     (create dbC4 "Test Group" ownerU.id false "" "ABCDEFGH" 0).2.2.is_manager = true ∧
     (create dbC4 "Test Group" ownerU.id false "" "ABCDEFGH" 0).2.2
        ∈ (create dbC4 "Test Group" ownerU.id false "" "ABCDEFGH" 0).1.members) :=
  ⟨rfl, rfl, c6_create_owner_membership dbC4 "Test Group" ownerU false "" "ABCDEFGH" 0 rfl rfl⟩

/-- C7: `has_member` and `get_member` return false / none for an
anonymous or inactive user whatever the membership table holds, and for
an active non-anonymous user `has_member` is true exactly when a
Membership row for the (user, group) pair exists. -/
theorem c7_member_guards (db : DB) (g : MapGroup) (u : User) :
    ((u.is_anonymous = true ∨ u.is_active = false) →
      has_member db g u = false ∧ get_member db g u = Except.ok none) ∧
    (u.is_anonymous = false → u.is_active = true →
      (has_member db g u = true ↔ ∃ m ∈ db.members, m.map_group = g.id ∧ m.user = u.id)) := by
  constructor
  · intro h
    rcases h with h | h <;> simp [has_member, get_member, h]
  · intro h1 h2
    rw [has_member]
    simp [h1, h2, List.isEmpty_iff, List.filter_eq_nil_iff, memberRow]

/-- C8: under the declared `unique_together(user, map_group)` constraint,
inserting a Membership for a pair that already has one fails with a
unique-constraint violation, and a successful insert appends exactly the
new row and preserves at-most-one-row-per-pair. -/
theorem c8_membership_unique (db : DB) (m : MapGroupMember) :
    ((∃ m' ∈ db.members, m'.user = m.user ∧ m'.map_group = m.map_group) →
      insertMember db m = Except.error DBError.uniqueConstraintViolation) ∧
    (∀ db', insertMember db m = Except.ok db' →
      db'.members = db.members ++ [m] ∧ (pairUnique db → pairUnique db')) := by
  constructor
  · intro h
    have hany : db.members.any (fun x => x.user = m.user && x.map_group = m.map_group) = true := by
      rw [List.any_eq_true]
      rcases h with ⟨m', hm', h1, h2⟩
      refine ⟨m', hm', ?_⟩
      simp [h1, h2]
    rw [insertMember, if_pos hany]
  · intro db' hok
    rw [insertMember] at hok
    by_cases hc : db.members.any (fun x => x.user = m.user && x.map_group = m.map_group) = true
    · rw [if_pos hc] at hok
      cases hok
    · rw [if_neg hc] at hok
      cases hok
      refine ⟨rfl, fun hu => ?_⟩
      rw [pairUnique]
      refine List.pairwise_append.mpr ⟨hu, List.pairwise_singleton _ _, ?_⟩
      intro a ha b hb
      rw [List.mem_singleton] at hb
      subst hb
      intro hcontra
      apply hc
      rw [List.any_eq_true]
      refine ⟨a, ha, ?_⟩
      simp [hcontra.1, hcontra.2]

/-- C9: whenever the store satisfies the pair-uniqueness invariant the
two lookups agree — `has_member` is true exactly when `get_member`
returns a row, false exactly when it returns none. -/
theorem c9_has_get_agree (db : DB) (g : MapGroup) (u : User) (hu : pairUnique db) :
    (has_member db g u = true ↔ ∃ m, get_member db g u = Except.ok (some m)) ∧
    (has_member db g u = false ↔ get_member db g u = Except.ok none) := by
  by_cases hguard : (u.is_anonymous || !u.is_active) = true
  · constructor <;> simp [has_member, get_member, hguard]
  · have hlen := filter_memberRow_len_le_one db g u hu
    match hfl : db.members.filter (memberRow g u) with
    | [] => constructor <;> simp [has_member, get_member, hguard, hfl]
    | [m] => constructor <;> simp [has_member, get_member, hguard, hfl]
    | m1 :: m2 :: rest =>
      rw [hfl] at hlen
      simp at hlen

/-- The store the C9 witness uses: user 1 holds the one membership of
group 5. -/
def dbC9 : DB :=
  { nextId := 200, users := [ownerU], permGroups := [pgC5], mapGroups := [gC5],
    members := [⟨7, 1, 5, 0, true, false⟩], featured := [], activities := [] }

/-- C9 witness: the agreement at a concrete one-membership store. -/
theorem c9_has_get_agree_witness :
    pairUnique dbC9 ∧
    ((has_member dbC9 gC5 ownerU = true ↔ ∃ m, get_member dbC9 gC5 ownerU = Except.ok (some m)) ∧
     (has_member dbC9 gC5 ownerU = false ↔ get_member dbC9 gC5 ownerU = Except.ok none)) :=
  ⟨by simp [pairUnique, dbC9], c9_has_get_agree dbC9 gC5 ownerU (by simp [pairUnique, dbC9])⟩

/-- C10: rename leaves users, memberships, featured ranks, activity rows
and the id counter untouched; every map-group row other than the renamed
one survives unchanged, the renamed row keeps its id, owner, blurb,
permission-group link and open flag (only name and slug change), every
permission-group row other than the linked one survives unchanged, the
linked one changes only its name, and no permission-group row changes its
identity or sharing flag. -/
theorem c10_rename_frame (db : DB) (g : MapGroup) (newName : String) (rnd : String) :
    (rename db g newName rnd).users = db.users ∧
    (rename db g newName rnd).members = db.members ∧
    (rename db g newName rnd).featured = db.featured ∧
    (rename db g newName rnd).activities = db.activities ∧
    (rename db g newName rnd).nextId = db.nextId ∧
    (rename db g newName rnd).mapGroups.length = db.mapGroups.length ∧
    (rename db g newName rnd).permGroups.length = db.permGroups.length ∧
    (∀ x ∈ db.mapGroups, x.id ≠ g.id → x ∈ (rename db g newName rnd).mapGroups) ∧
    (∀ x ∈ db.mapGroups, x.id = g.id →
      { x with name := newName, slug := slugify newName } ∈ (rename db g newName rnd).mapGroups) ∧
    (∀ p ∈ db.permGroups, p.id ≠ g.permission_group → p ∈ (rename db g newName rnd).permGroups) ∧
    (∀ p ∈ db.permGroups, p.id = g.permission_group →
      { p with name := permission_group_name newName rnd } ∈ (rename db g newName rnd).permGroups) ∧
    (∀ q ∈ (rename db g newName rnd).permGroups, ∃ p ∈ db.permGroups,
      q.id = p.id ∧ q.sharing_enabled = p.sharing_enabled) := by
  have hmg : (rename db g newName rnd).mapGroups = db.mapGroups.map
      (fun x => if x.id = g.id then { x with name := newName, slug := slugify newName } else x) := rfl
  have hpg : (rename db g newName rnd).permGroups = db.permGroups.map
      (fun p => if p.id = g.permission_group then
        { p with name := permission_group_name newName rnd } else p) := rfl
  refine ⟨rfl, rfl, rfl, rfl, rfl, ?_, ?_, ?_, ?_, ?_, ?_, ?_⟩
  · rw [hmg, List.length_map]
  · rw [hpg, List.length_map]
  · intro x hx hne
    rw [hmg]
    have h := List.mem_map_of_mem
      (fun x => if x.id = g.id then { x with name := newName, slug := slugify newName } else x) hx
    simpa [if_neg hne] using h
  · intro x hx he
    rw [hmg]
    have h := List.mem_map_of_mem
      (fun x => if x.id = g.id then { x with name := newName, slug := slugify newName } else x) hx
    simpa [if_pos he] using h
  · intro p hp hne
    rw [hpg]
    have h := List.mem_map_of_mem
      (fun p => if p.id = g.permission_group then
        { p with name := permission_group_name newName rnd } else p) hp
    simpa [if_neg hne] using h
  · intro p hp he
    rw [hpg]
    have h := List.mem_map_of_mem
      (fun p => if p.id = g.permission_group then
        { p with name := permission_group_name newName rnd } else p) hp
    simpa [if_pos he] using h
  · intro q hq
    rw [hpg] at hq
    rcases List.mem_map.mp hq with ⟨p, hp, hpq⟩
    refine ⟨p, hp, ?_⟩
    by_cases he : p.id = g.permission_group
    · rw [if_pos he] at hpq
      cases hpq
      exact ⟨rfl, rfl⟩
    · rw [if_neg he] at hpq
      cases hpq
      exact ⟨rfl, rfl⟩

end Mapgroups
